import Mathlib

/-!
Verification of the diagnostic extraction engine and the repair retry loop
of the `ai-agent-generate` repository.

The Go sources are shallowly embedded: each Go function that the claims
touch is translated into an executable Lean definition operating on
`String` / `List Char`.  Regular-expression matching in the source
(`regexp.MustCompile` applied to the five fixed patterns) is translated
into explicit scanning functions with the leftmost-first semantics the Go
`regexp` package exhibits on those patterns.  External collaborators
(file service, LLM service, command executor) are modelled as
attempt-indexed functions; the engine's retry loop is a fuel-indexed
recursion whose fuel is the configured `MaxRetries`.
-/

/-! ## Character classes (ASCII models of the Go / RE2 classes) -/

/-- RE2 character class `\d`. -/
def isDigitChar (c : Char) : Bool := '0' ≤ c && c ≤ '9'

/-- RE2 character class `\w` = `[0-9A-Za-z_]`. -/
def isWordChar (c : Char) : Bool :=
  ('0' ≤ c && c ≤ '9') || ('a' ≤ c && c ≤ 'z') || ('A' ≤ c && c ≤ 'Z') || c = '_'

/-- RE2 character class `\s` = `[\t\n\f\r ]`, also used to model
`strings.TrimSpace` (ASCII fragment). -/
def isSpaceChar (c : Char) : Bool :=
  c = ' ' || c = '\t' || c = '\n' || c = '\r' || c = '\x0c' || c = '\x0b'

/-- Character class `[a-zA-Z0-9]` used by `sanitizeID`. -/
def isAlnumChar (c : Char) : Bool :=
  ('0' ≤ c && c ≤ '9') || ('a' ≤ c && c ≤ 'z') || ('A' ≤ c && c ≤ 'Z')

/-- ASCII letter test (word boundary test of `strings.Title`). -/
def isLetterChar (c : Char) : Bool :=
  ('a' ≤ c && c ≤ 'z') || ('A' ≤ c && c ≤ 'Z')

/-- ASCII lower-casing, modelling `strings.ToLower` on ASCII text. -/
def toLowerChar (c : Char) : Char :=
  if 'A' ≤ c && c ≤ 'Z' then Char.ofNat (c.toNat + 32) else c

/-! ## List-of-characters utilities shared by the embeddings -/

/-- `isPre p l` holds when `p` is a prefix of `l`
(`strings.HasPrefix`, and one step of substring search). -/
def isPre : List Char → List Char → Bool
  | [], _ => true
  | _ :: _, [] => false
  | a :: as, b :: bs => a = b && isPre as bs

/-- `containsSub l p` holds when `p` occurs in `l` as a contiguous
substring (`strings.Contains`). -/
def containsSub : List Char → List Char → Bool
  | l, p =>
    match l with
    | [] => isPre p []
    | _ :: cs => isPre p l || containsSub cs p

/-- String-level wrapper for `strings.Contains`. -/
def strContains (s pat : String) : Bool := containsSub s.data pat.data

theorem isPre_refl (p : List Char) : isPre p p = true := by
  induction p with
  | nil => rfl
  | cons a as ih => simp [isPre, ih]

theorem isPre_append (p a b : List Char) (h : isPre p a = true) :
    isPre p (a ++ b) = true := by
  induction p generalizing a with
  | nil => rfl
  | cons c cs ih =>
    cases a with
    | nil => simp [isPre] at h
    | cons x xs =>
      simp only [isPre, Bool.and_eq_true] at h
      simp [isPre, h.1, ih xs h.2]

theorem containsSub_of_isPre (l p : List Char) (h : isPre p l = true) :
    containsSub l p = true := by
  cases l with
  | nil => simpa [containsSub] using h
  | cons c cs => simp [containsSub, h]

theorem containsSub_append_right (a b p : List Char)
    (h : containsSub b p = true) : containsSub (a ++ b) p = true := by
  induction a with
  | nil => simpa using h
  | cons c cs ih =>
    simp only [List.cons_append, containsSub]
    simp [ih]

theorem containsSub_nil (l : List Char) : containsSub l [] = true := by
  cases l <;> simp [containsSub, isPre]

theorem containsSub_append_left (a b p : List Char)
    (h : containsSub a p = true) : containsSub (a ++ b) p = true := by
  induction a with
  | nil =>
    cases p with
    | nil => exact containsSub_nil b
    | cons q qs => simp [containsSub, isPre] at h
  | cons c cs ih =>
    simp only [containsSub] at h
    rcases Bool.or_eq_true_iff.mp h with h1 | h2
    · simp only [List.cons_append, containsSub]
      have h3 := isPre_append p (c :: cs) b h1
      simp only [List.cons_append] at h3
      simp [h3]
    · simp only [List.cons_append, containsSub]
      simp [ih h2]

theorem containsSub_self (p : List Char) : containsSub p p = true := by
  cases p with
  | nil => rfl
  | cons c cs => simp [containsSub, isPre_refl]

/-- `splitOnChar sep l` splits `l` at every occurrence of `sep`
(`strings.Split` with a one-character separator). -/
def splitOnChar (sep : Char) : List Char → List (List Char)
  | [] => [[]]
  | c :: cs =>
    if c = sep then
      [] :: splitOnChar sep cs
    else
      match splitOnChar sep cs with
      | [] => [[c]]
      | h :: t => (c :: h) :: t

/-- `strings.TrimSpace` (ASCII model). -/
def trimSpaceList (l : List Char) : List Char :=
  ((l.dropWhile isSpaceChar).reverse.dropWhile isSpaceChar).reverse

/-! ## Decimal rendering (the `%d` verb of `fmt.Sprintf`) -/

/-- Decimal digit character for a value `< 10`. -/
def decDigit (n : Nat) : Char := Char.ofNat (48 + n)

/-- Decimal digit list of a natural number via fuel-indexed structural
recursion (the fuel is always sufficient at the call site). -/
def natDecAux : Nat → Nat → List Char
  | 0, _ => []
  | fuel + 1, n =>
    if n < 10 then [decDigit n]
    else natDecAux fuel (n / 10) ++ [decDigit (n % 10)]

/-- Decimal digit list of a natural number, most significant digit first
(the `%d` verb of `fmt.Sprintf` for non-negative values). -/
def natDecList (n : Nat) : List Char := natDecAux (n + 1) n

/-- String form of `natDecList`. -/
def natDec (n : Nat) : String := ⟨natDecList n⟩

/-- Value of a decimal digit character. -/
def digitVal (c : Char) : Nat := c.toNat - 48

/-- Fold a digit string back to the number it denotes
(used to invert `natDecList`). -/
def digitsVal (l : List Char) : Nat := l.foldl (fun a c => 10 * a + digitVal c) 0

theorem digitVal_decDigit (n : Nat) (h : n < 10) : digitVal (decDigit n) = n := by
  interval_cases n <;> decide

theorem digitsVal_append (a b : List Char) :
    digitsVal (a ++ b) = b.foldl (fun x c => 10 * x + digitVal c) (digitsVal a) := by
  simp [digitsVal, List.foldl_append]

theorem digitsVal_natDecAux (fuel n : Nat) (hf : n < fuel) :
    digitsVal (natDecAux fuel n) = n := by
  induction fuel generalizing n with
  | zero => omega
  | succ k ih =>
    by_cases h : n < 10
    · simp [natDecAux, h, digitsVal, List.foldl, digitVal_decDigit n h]
    · have hd : n / 10 < n := Nat.div_lt_self (by omega) (by omega)
      have hm : n % 10 < 10 := Nat.mod_lt _ (by omega)
      rw [natDecAux]
      simp only [h, if_false]
      rw [digitsVal_append]
      simp [List.foldl, ih (n / 10) (by omega), digitVal_decDigit _ hm]
      omega

theorem digitsVal_natDecList (n : Nat) : digitsVal (natDecList n) = n :=
  digitsVal_natDecAux (n + 1) n (by omega)

theorem natDecList_inj {n m : Nat} (h : natDecList n = natDecList m) : n = m := by
  have := digitsVal_natDecList n
  rw [h, digitsVal_natDecList] at this
  omega

/-! ## `sanitizeID` (diagnose.go lines 746-750)

`sanitizeID` replaces every maximal run of characters outside
`[a-zA-Z0-9]` with a single dash and then trims dashes from both ends. -/

/-- Replace each maximal run of non-alphanumeric characters with one `'-'`
(the `ReplaceAllString` step of `sanitizeID`); the Boolean flag records
whether the previous character was part of such a run. -/
def collapseNonAlnum : Bool → List Char → List Char
  | _, [] => []
  | inRun, c :: cs =>
    if isAlnumChar c then c :: collapseNonAlnum false cs
    else if inRun then collapseNonAlnum true cs
    else '-' :: collapseNonAlnum true cs

/-- `strings.Trim(s, "-")`. -/
def trimDash (l : List Char) : List Char :=
  ((l.dropWhile (· = '-')).reverse.dropWhile (· = '-')).reverse

/-- `sanitizeID` from diagnose.go. -/
def sanitizeID (l : List Char) : List Char := trimDash (collapseNonAlnum false l)

/-- `sanitizeID` on strings. -/
def sanitizeIDStr (s : String) : String := ⟨sanitizeID s.data⟩

/-- `parseInt` from diagnose.go (`fmt.Sscanf` with `%d`); in every call
site the argument is a non-empty digit string produced by the regex
capture `(\d+)`, on which it returns the denoted number. -/
def parseIntDigits (l : List Char) : Nat := digitsVal l

example : trimSpaceList "  a b \t".data = "a b".data := by decide
example : containsSub "hello 'world'".data "o 'w".data = true := by decide
example : splitOnChar '\n' "a\nb".data = ["a".data, "b".data] := by decide
example : sanitizeIDStr "a.go" = "a-go" := by decide
example : sanitizeIDStr "_a..b_" = "a-b" := by decide
example : natDec 120 = "120" := by decide
example : parseIntDigits "12".data = 12 := by decide

/-! ## The Issue model (diagnose.go lines 41-55)

Fields the claims never mention (`Snippet`, `FixResult`, `Fixed`) carry no
information in the extractors under study and are omitted; absent optional
fields keep Go's zero values. -/

structure Issue where
  id : String := ""
  category : String := ""
  level : String := ""
  title : String := ""
  description : String := ""
  file : String := ""
  line : Nat := 0
  column : Nat := 0
  suggestion : String := ""
  rawOutput : String := ""
  deriving Repr, DecidableEq

/-! ## The compiler-error extractor (diagnose.go lines 280-359)

`errorPattern` is `^([^:]+):(\d+):(\d+):\s*(.+)$`.  Matching it against a
line forces: group 1 = the (non-empty) text before the first colon, groups
2 and 3 = the all-digit segments between the following colons, and group 4
= the remainder with leading whitespace stripped (with RE2's backtracking
fallback when that remainder is pure whitespace). -/

/-- Split at the first occurrence of `':'`; `none` when there is none. -/
def splitAtColon : List Char → Option (List Char × List Char)
  | [] => none
  | c :: cs =>
    if c = ':' then some ([], cs)
    else
      match splitAtColon cs with
      | some (a, b) => some (c :: a, b)
      | none => none

/-- Match `\s*(.+)$` against the residue of an `errorPattern` match;
returns the capture of `(.+)`. -/
def msgTail (r : List Char) : Option (List Char) :=
  let m := r.dropWhile isSpaceChar
  if m.isEmpty then
    match (r.filter (fun d => d ≠ '\n')).getLast? with
    | some d => some [d]
    | none => none
  else if m.contains '\n' then none
  else some m

/-- Match `errorPattern` against a whole line; returns the four captures
`(file, line digits, column digits, message)`. -/
def matchErrorPattern (l : List Char) : Option (List Char × List Char × List Char × List Char) :=
  match splitAtColon l with
  | none => none
  | some (f, r1) =>
    if f.isEmpty then none
    else
      match splitAtColon r1 with
      | none => none
      | some (d1, r2) =>
        if d1.isEmpty || !(d1.all isDigitChar) then none
        else
          match splitAtColon r2 with
          | none => none
          | some (d2, r3) =>
            if d2.isEmpty || !(d2.all isDigitChar) then none
            else
              match msgTail r3 with
              | some msg => some (f, d1, d2, msg)
              | none => none

/-- Match `\s*(\w+)` at a position right after an `undefined:` literal. -/
def undefinedAfter (after : List Char) : Option (List Char) :=
  let w := (after.dropWhile isSpaceChar).takeWhile isWordChar
  if w.isEmpty then none else some w

/-- Leftmost match of `undefinedPattern` = `undefined:\s*(\w+)`;
returns the captured identifier. -/
def findUndefined : List Char → Option (List Char)
  | [] => none
  | c :: cs =>
    if isPre "undefined:".data (c :: cs) then
      match undefinedAfter ((c :: cs).drop 10) with
      | some w => some w
      | none => findUndefined cs
    else findUndefined cs

/-- Match `\s+(.+)` at a position right after a `could not import` literal. -/
def importAfter (after : List Char) : Option (List Char) :=
  match after with
  | [] => none
  | c :: _ =>
    if isSpaceChar c then
      let rest := after.dropWhile isSpaceChar
      if rest.isEmpty then
        match ((after.drop 1).filter (fun d => d ≠ '\n')).getLast? with
        | some d => some [d]
        | none => none
      else some (rest.takeWhile (fun d => d ≠ '\n'))
    else none

/-- Leftmost match of `importPattern` = `could not import\s+(.+)`;
returns the captured package path. -/
def findImport : List Char → Option (List Char)
  | [] => none
  | c :: cs =>
    if isPre "could not import".data (c :: cs) then
      match importAfter ((c :: cs).drop 16) with
      | some p => some p
      | none => findImport cs
    else findImport cs

/-- Classification of a structured build-error line (diagnose.go lines
299-343): the body of the `errorPattern` branch of `parseBuildErrors`. -/
def classifyBuildMatch (rawLine f d1 d2 msg : List Char) : Issue :=
  let base : Issue :=
    { category := "build", level := "error", file := ⟨f⟩,
      line := parseIntDigits d1, column := parseIntDigits d2,
      rawOutput := ⟨rawLine⟩ }
  if containsSub msg "undefined".data then
    match findUndefined msg with
    | some w =>
      { base with
          id := "build-undefined-" ++ ⟨w⟩,
          title := "Undefined identifier: " ++ ⟨w⟩,
          description := ⟨msg⟩,
          suggestion := "Check if '" ++ String.mk w ++ "' is defined or imported correctly" }
    | none => base
  else if containsSub msg "could not import".data then
    match findImport msg with
    | some p =>
      { base with
          id := "build-import-" ++ sanitizeIDStr ⟨p⟩,
          title := "Import failed: " ++ ⟨p⟩,
          description := ⟨msg⟩,
          suggestion := "Check if the package exists and run 'go mod tidy'" }
    | none => base
  else if containsSub msg "declared but not used".data then
    { base with
        id := "build-unused-" ++ sanitizeIDStr ⟨f⟩ ++ "-" ++ natDec (parseIntDigits d1),
        title := "Unused variable/declaration",
        description := ⟨msg⟩,
        level := "warning",
        suggestion := "Remove unused declaration or use the variable" }
  else if containsSub msg "cannot use".data then
    { base with
        id := "build-type-mismatch-" ++ sanitizeIDStr ⟨f⟩ ++ "-" ++ natDec (parseIntDigits d1),
        title := "Type mismatch",
        description := ⟨msg⟩,
        suggestion := "Check type compatibility" }
  else
    { base with
        id := "build-error-" ++ sanitizeIDStr ⟨f⟩ ++ "-" ++ natDec (parseIntDigits d1),
        title := "Build error",
        description := ⟨msg⟩ }

/-- The line loop of `parseBuildErrors`; `acc` is the issue list built so
far (the generic-fallback id uses its length as the running counter). -/
def parseBuildErrorsLines : List (List Char) → List Issue → List Issue
  | [], acc => acc
  | l :: ls, acc =>
    let t := trimSpaceList l
    if t.isEmpty then parseBuildErrorsLines ls acc
    else
      match matchErrorPattern t with
      | some (f, d1, d2, msg) =>
        parseBuildErrorsLines ls (acc ++ [classifyBuildMatch t f d1 d2 msg])
      | none =>
        if containsSub t "error".data || containsSub t "Error".data then
          parseBuildErrorsLines ls
            (acc ++ [{ id := "build-generic-" ++ natDec acc.length,
                       category := "build", level := "error",
                       title := "Build error", description := ⟨t⟩,
                       rawOutput := ⟨t⟩ }])
        else parseBuildErrorsLines ls acc

/-- `parseBuildErrors` from diagnose.go. -/
def parseBuildErrors (output : String) : List Issue :=
  parseBuildErrorsLines (splitOnChar '\n' output.data) []

/-! ## The runtime-crash extractor (diagnose.go lines 589-638) -/

/-- Match `\s*(.+)` at a position right after a `panic:` literal. -/
def panicTail (after : List Char) : Option (List Char) :=
  let rest := after.dropWhile isSpaceChar
  if rest.isEmpty then
    match (after.filter (fun d => d ≠ '\n')).getLast? with
    | some d => some [d]
    | none => none
  else some (rest.takeWhile (fun d => d ≠ '\n'))

/-- Leftmost match of `panicPattern` = `panic:\s*(.+)`;
returns the captured message. -/
def findPanic : List Char → Option (List Char)
  | [] => none
  | c :: cs =>
    if isPre "panic:".data (c :: cs) then
      match panicTail ((c :: cs).drop 6) with
      | some m => some m
      | none => findPanic cs
    else findPanic cs

/-- `parseRuntimeErrors` from diagnose.go: one issue per matched
signature (panic, nil dereference, index out of range). -/
def parseRuntimeErrors (output : String) : List Issue :=
  (match findPanic output.data with
   | some m =>
     [{ id := "runtime-panic", category := "runtime", level := "critical",
        title := "Runtime panic", description := ⟨m⟩, rawOutput := output,
        suggestion := "Review the panic stack trace and fix the root cause" }]
   | none => [])
  ++ (if containsSub output.data "nil pointer dereference".data then
        [{ id := "runtime-nil-pointer", category := "runtime", level := "critical",
           title := "Nil pointer dereference",
           description := "The program attempted to access a nil pointer",
           rawOutput := output,
           suggestion := "Add nil checks before accessing pointers" }]
      else [])
  ++ (if containsSub output.data "index out of range".data then
        [{ id := "runtime-index-out-of-range", category := "runtime", level := "critical",
           title := "Index out of range",
           description := "Array/slice index out of bounds",
           rawOutput := output,
           suggestion := "Add bounds checking before accessing array/slice elements" }]
      else [])

example :
    (parseBuildErrors "handler.go:12:5: undefined: parseUser").map Issue.id =
      ["build-undefined-parseUser"] := by decide
example :
    (parseBuildErrors "a.go:3:1: x declared but not used").map Issue.id =
      ["build-unused-a-go-3"] := by decide
example :
    (parseBuildErrors "some error here\nother error").map Issue.id =
      ["build-generic-0", "build-generic-1"] := by decide
example :
    (parseRuntimeErrors "panic: boom\ngoroutine 1\npanic: boom").map Issue.id =
      ["runtime-panic"] := by decide
example :
    (parseRuntimeErrors "panic: runtime error: index out of range [3]").map Issue.id =
      ["runtime-panic", "runtime-index-out-of-range"] := by decide

/-! ## The repair engine (orchestrator, part_003)

The engine's collaborators (file service, prompt service, LLM service,
command executor) are modelled as attempt-indexed functions: the engine
calls each collaborator at most once per attempt, so indexing by the
1-based attempt number captures any stateful stub.  Pointer mutation of
the caller's `Request` is modelled by returning the final `Request`
alongside the `Result`. -/

structure Request where
  mode : String
  files : List String
  instruction : String
  workDir : String
  deriving Repr, DecidableEq

/-- The orchestrator's `Result` (Duration omitted: wall-clock time). -/
structure RunResult where
  success : Bool := false
  filesWritten : List String := []
  output : String := ""
  explanation : String := ""
  attempts : Int := 0
  error : Option String := none
  deriving Repr, DecidableEq

/-- The orchestrator's `Config` (the `Logger` collaborator only logs). -/
structure EngineConfig where
  maxRetries : Int
  buildVerify : Bool
  deriving Repr, DecidableEq

structure CodeBlock where
  language : String := ""
  code : String := ""
  filename : String := ""
  deriving Repr, DecidableEq

/-- Attempt-indexed behaviours of the engine's collaborators. -/
structure Services where
  read : Nat → String → Except String String
  buildP : Nat → String → String → List (String × String) → Except String String
  chat : Nat → String → Except String String
  write : Nat → String → String → Except String Unit
  exec : Nat → String → String → Except String (Int × String × String)

/-- `Engine.readFiles`: read every requested file, first failure wins,
wrapped as `path: err`. -/
def readFiles (rd : String → Except String String) :
    List String → Except String (List (String × String))
  | [] => .ok []
  | p :: ps =>
    match rd p with
    | .error e => .error (p ++ ": " ++ e)
    | .ok c =>
      match readFiles rd ps with
      | .error e => .error e
      | .ok rest => .ok ((p, c) :: rest)

/-! ### Code-block extraction (`Engine.parseCodeBlocks`)

The pattern is ``` `(\w*)\n?([\s\S]*?)` ``` fences: a fence opener, a
greedy word-character language tag, an optional newline, then the lazy
body up to the nearest closing fence.  `findClose` locates the nearest
closing fence; `scanBlocks` performs the leftmost scan of
`FindAllStringSubmatch`, resuming after each match. -/

/-- Split at the nearest triple-backtick fence: returns the text before
it and the text after it. -/
def findClose : List Char → Option (List Char × List Char)
  | [] => none
  | c :: cs =>
    if isPre "```".data (c :: cs) then some ([], cs.drop 2)
    else
      match findClose cs with
      | some (code, rest) => some (c :: code, rest)
      | none => none

theorem findClose_rest_lt :
    ∀ l code rest, findClose l = some (code, rest) → rest.length < l.length := by
  intro l
  induction l with
  | nil => intro code rest h; simp [findClose] at h
  | cons c cs ih =>
    intro code rest h
    by_cases hp : isPre "```".data (c :: cs) = true
    · simp only [findClose, hp, if_true] at h
      have : rest = cs.drop 2 := by
        have := h
        injection this with h1
        injection h1
        simp_all
      subst this
      have := List.length_drop 2 cs
      simp [List.length_cons]
      omega
    · simp only [findClose, hp, if_false] at h
      cases hfc : findClose cs with
      | none => rw [hfc] at h; exact absurd h (by simp)
      | some pr =>
        rw [hfc] at h
        obtain ⟨code', rest'⟩ := pr
        have hrl := ih code' rest' hfc
        have : rest = rest' := by
          injection h with h1
          injection h1
          simp_all
        subst this
        simp [List.length_cons]
        omega

/-- Drop a single leading newline (the `\n?` of the fence pattern). -/
def stripLeadNl : List Char → List Char
  | '\n' :: r => r
  | l => l

theorem stripLeadNl_length_le (l : List Char) : (stripLeadNl l).length ≤ l.length := by
  unfold stripLeadNl
  split
  · simp
  · exact Nat.le_refl _

theorem length_dropWhile_le' (p : Char → Bool) (l : List Char) :
    (l.dropWhile p).length ≤ l.length := by
  induction l with
  | nil => simp [List.dropWhile]
  | cons c cs ih =>
    simp only [List.dropWhile]
    split <;> simp <;> omega

/-- The fence scan, fuel-indexed so that it reduces structurally; every
step strictly shortens the scanned list, so any fuel at least the input
length is sufficient. -/
def scanBlocksAux : Nat → List Char → List (List Char × List Char)
  | 0, _ => []
  | fuel + 1, s =>
    match s with
    | [] => []
    | c :: cs =>
      if isPre "```".data (c :: cs) then
        match findClose (stripLeadNl ((cs.drop 2).dropWhile isWordChar)) with
        | some (code, rest) =>
          ((cs.drop 2).takeWhile isWordChar, code) :: scanBlocksAux fuel rest
        | none => scanBlocksAux fuel cs
      else scanBlocksAux fuel cs

/-- All fence matches of a response, as `(language tag, raw body)` pairs,
in scan order. -/
def scanBlocks (s : List Char) : List (List Char × List Char) :=
  scanBlocksAux s.length s

/-- `Engine.parseCodeBlocks`: trim each fence body, keep the non-empty
ones; the engine never fills `filename`. -/
def parseCodeBlocks (response : String) : List CodeBlock :=
  (scanBlocks response.data).filterMap fun p =>
    let code := trimSpaceList p.2
    if code.isEmpty then none
    else some { language := ⟨p.1⟩, code := ⟨code⟩, filename := "" }

/-! ### `Engine.writeFiles` -/

/-- The write loop of `Engine.writeFiles`.  Besides the written-paths
list and the error that Go returns, the embedding also returns the trace
of `(path, content)` pairs actually handed to the file service. -/
def writeFilesLoop (write : String → String → Except String Unit)
    (files : List String) :
    Nat → List CodeBlock → List (String × String) → List String →
    List (String × String) × List String × Option String
  | _, [], trace, written => (trace, written, none)
  | i, b :: bs, trace, written =>
    let target? : Option String :=
      if i < files.length then some (files.getD i "")
      else if b.filename ≠ "" then some b.filename
      else none
    match target? with
    | none => writeFilesLoop write files (i + 1) bs trace written
    | some t =>
      match write t b.code with
      | .error e => (trace, written, some (t ++ ": " ++ e))
      | .ok _ =>
        writeFilesLoop write files (i + 1) bs (trace ++ [(t, b.code)]) (written ++ [t])

/-- `Engine.writeFiles`. -/
def writeFiles (write : String → String → Except String Unit)
    (files : List String) (blocks : List CodeBlock) :
    List (String × String) × List String × Option String :=
  writeFilesLoop write files 0 blocks [] []

/-! ### `Engine.extractExplanation` -/

/-- The replacement scan of `ReplaceAllString`, fuel-indexed so that it
reduces structurally; any fuel at least the input length is sufficient. -/
def stripBlocksAux : Nat → List Char → List Char
  | 0, s => s
  | fuel + 1, s =>
    match s with
    | [] => []
    | c :: cs =>
      if isPre "```".data (c :: cs) then
        match findClose (cs.drop 2) with
        | some (_, rest) => stripBlocksAux fuel rest
        | none => c :: stripBlocksAux fuel cs
      else c :: stripBlocksAux fuel cs

/-- `ReplaceAllString` of the fence pattern with the empty string. -/
def stripBlocks (s : List Char) : List Char :=
  stripBlocksAux s.length s

/-- `Engine.extractExplanation`. -/
def extractExplanation (response : String) : String :=
  ⟨trimSpaceList (stripBlocks response.data)⟩

/-! ### Error classification and feedback injection -/

/-- `Engine.isRetryable`: lower-case the error text and look for the five
retryability markers. -/
def isRetryable (e : String) : Bool :=
  let m := e.data.map toLowerChar
  containsSub m "timeout".data || containsSub m "connection".data ||
  containsSub m "rate limit".data || containsSub m "503".data ||
  containsSub m "502".data

/-- `Engine.appendBuildError`. -/
def appendBuildError (instruction e : String) : String :=
  instruction ++ "\n\nPrevious attempt failed:\n" ++ e ++ "\nPlease fix the code."

/-- `Engine.verifyBuild`: run `go build ./...` in the work directory; a
non-zero exit turns the captured stderr into the error. -/
def verifyBuild (ex : String → String → Except String (Int × String × String))
    (workDir : String) : Option String :=
  match ex "go build ./..." workDir with
  | .error e => some e
  | .ok (exitCode, _stdout, stderr) => if exitCode ≠ 0 then some stderr else none

/-! ### The concrete prompt builder (service/prompt + the CLI adapter)

The CLI wires the engine's `PromptService` to `prompt.Builder`: the
adapter collects mode, instruction and files, runs `Builder.Build`, and
returns the content of the last message — the user prompt produced by
`buildUserPrompt`.  The adapter never adds constraints, so the
constraints section is always empty. -/

/-- Byte-order string comparison (`sort.Strings`, ASCII model). -/
def leChars : List Char → List Char → Bool
  | [], _ => true
  | _ :: _, [] => false
  | a :: as, b :: bs => if a = b then leChars as bs else decide (a < b)

def insertSorted (x : String) : List String → List String
  | [] => [x]
  | y :: ys => if leChars x.data y.data then x :: y :: ys else y :: insertSorted x ys

/-- Ascending sort of the map keys (`sort.Strings`). -/
def sortStrings (l : List String) : List String := l.foldr insertSorted []

def dedupAux : List String → List String → List String
  | [], _ => []
  | x :: xs, seen =>
    if seen.contains x then dedupAux xs seen else x :: dedupAux xs (x :: seen)

/-- Key set of the builder's file map (insertion into a Go map keeps one
entry per key). -/
def dedupFirst (l : List String) : List String := dedupAux l []

/-- Value of the builder's file map at a key (later insertions win). -/
def lastVal (l : List (String × String)) (k : String) : String :=
  l.foldl (fun acc p => if p.1 = k then p.2 else acc) ""

/-- `strings.Title` (ASCII model): upper-case every letter that does not
follow a letter. -/
def titleChars : Bool → List Char → List Char
  | _, [] => []
  | prevLetter, c :: cs =>
    (if prevLetter then c else c.toUpper) :: titleChars (isLetterChar c) cs

def goTitle (s : String) : String := ⟨titleChars false s.data⟩

/-- Portion of `l` after the last occurrence of `sep` (the whole list
when `sep` does not occur). -/
def afterLast (sep : Char) (l : List Char) : List Char :=
  (splitOnChar sep l).getLast?.getD l

/-- Lower-cased `filepath.Ext` without its dot. -/
def extLower (path : String) : List Char :=
  let base := afterLast '/' path.data
  if base.contains '.' then (afterLast '.' base).map toLowerChar else []

/-- `detectLanguage` from the prompt package. -/
def detectLanguage (path : String) : String :=
  let ext : String := ⟨extLower path⟩
  if ext = "go" then "go"
  else if ext = "py" then "python"
  else if ext = "js" then "javascript"
  else if ext = "ts" then "typescript"
  else if ext = "tsx" then "typescript"
  else if ext = "jsx" then "javascript"
  else if ext = "java" then "java"
  else if ext = "kt" then "kotlin"
  else if ext = "rs" then "rust"
  else if ext = "c" then "c"
  else if ext = "cpp" then "cpp"
  else if ext = "cs" then "csharp"
  else if ext = "rb" then "ruby"
  else if ext = "php" then "php"
  else if ext = "swift" then "swift"
  else if ext = "scala" then "scala"
  else ""

/-- One file entry of the `### Files:` section. -/
def fileBlock (files : List (String × String)) (path : String) : String :=
  "\n--- FILE: " ++ path ++ " ---\n```" ++ detectLanguage path ++ "\n"
    ++ lastVal files path ++ "\n```\n"

/-- The `### Files:` section of `buildUserPrompt`. -/
def filesSection (files : List (String × String)) : String :=
  if files.isEmpty then ""
  else "### Files:\n"
    ++ String.join ((sortStrings (dedupFirst (files.map Prod.fst))).map (fileBlock files))

/-- `Builder.buildUserPrompt` for an adapter-built prompt (no
constraints); this is the string the CLI's `PromptService.Build` returns
and the engine sends to the LLM. -/
def buildUserPrompt (mode instruction : String) (files : List (String × String)) : String :=
  (if instruction = "" then ""
   else "## Task: " ++ goTitle mode ++ "\n\n" ++ "### Instruction:\n" ++ instruction ++ "\n\n")
  ++ filesSection files
  ++ "\nProvide your response with code in markdown code blocks (```language\\ncode\\n```)."

/-! ### `Engine.Execute` (part_003 lines 95-171)

The loop `for attempt := 1; attempt <= MaxRetries; attempt++` is embedded
with `fuel = max(0, MaxRetries)` remaining iterations and the 1-based
`attempt` counter.  Each arm reproduces one `continue`/`break` path of
the Go loop body, including the error-wrapping prefixes. -/

/-- One iteration of the `Execute` loop body.  `.inl` is a `break` /
`return` path (fatal LLM error, or success), `.inr` is a `continue` path
carrying the updated result and — after a verification failure — the
request with the feedback-extended instruction. -/
def execStep (svc : Services) (cfg : EngineConfig) (attempt : Nat)
    (req : Request) (res0 : RunResult) : (RunResult × Request) ⊕ (RunResult × Request) :=
  let res := { res0 with attempts := (attempt : Int) }
  match readFiles (svc.read attempt) req.files with
  | .error e => .inr ({ res with error := some ("read files: " ++ e) }, req)
  | .ok contents =>
    match svc.buildP attempt req.mode req.instruction contents with
    | .error e => .inr ({ res with error := some ("build prompt: " ++ e) }, req)
    | .ok pr =>
      match svc.chat attempt pr with
      | .error e =>
        if isRetryable e then .inr ({ res with error := some ("LLM call: " ++ e) }, req)
        else .inl ({ res with error := some ("LLM call: " ++ e) }, req)
      | .ok response =>
        if (parseCodeBlocks response).isEmpty then
          .inr ({ res with error := some "no code blocks found in response" }, req)
        else
          match writeFiles (svc.write attempt) req.files (parseCodeBlocks response) with
          | (_, _, some e) => .inr ({ res with error := some ("write files: " ++ e) }, req)
          | (_, written, none) =>
            if cfg.buildVerify && req.workDir ≠ "" then
              match verifyBuild (svc.exec attempt) req.workDir with
              | some e =>
                .inr ({ res with filesWritten := written,
                                 error := some ("build failed: " ++ e) },
                      { req with instruction := appendBuildError req.instruction e })
              | none =>
                .inl ({ res with filesWritten := written, success := true,
                                 output := response,
                                 explanation := extractExplanation response,
                                 error := none }, req)
            else
              .inl ({ res with filesWritten := written, success := true,
                               output := response,
                               explanation := extractExplanation response,
                               error := none }, req)

/-- The `for attempt := 1; attempt <= MaxRetries; attempt++` loop. -/
def execLoop (svc : Services) (cfg : EngineConfig) :
    Nat → Nat → Request → RunResult → RunResult × Request
  | 0, _, req, res => (res, req)
  | fuel + 1, attempt, req, res =>
    match execStep svc cfg attempt req res with
    | .inl out => out
    | .inr (res', req') => execLoop svc cfg fuel (attempt + 1) req' res'

/-- `Engine.Execute`; the final `Request` is returned to expose the
in-place mutation of the caller's request. -/
def Execute (svc : Services) (cfg : EngineConfig) (req : Request) : RunResult × Request :=
  execLoop svc cfg cfg.maxRetries.toNat 1 req {}

example :
    parseCodeBlocks "text\n```go\nfunc main() {}\n```\nmore" =
      [{ language := "go", code := "func main() {}", filename := "" }] := by decide
example : parseCodeBlocks "no blocks" = [] := by decide
example :
    parseCodeBlocks "```\nA\n```\nmid\n```py\nB\n```" =
      [{ language := "", code := "A", filename := "" },
       { language := "py", code := "B", filename := "" }] := by decide
example : extractExplanation "before\n```go\nX\n```\nafter" = "before\n\nafter" := by decide
example : isRetryable "HTTP 502 Bad Gateway" = true := by decide
example : isRetryable "Connection refused" = true := by decide
example : isRetryable "invalid api key" = false := by decide
example :
    buildUserPrompt "fix" "Fix it" [] =
      "## Task: Fix\n\n### Instruction:\nFix it\n\n"
        ++ "\nProvide your response with code in markdown code blocks (```language\\ncode\\n```)." := by
  decide

/-! ## Properties of one loop iteration -/

/-- Result component of a step outcome. -/
def stepRes : (RunResult × Request) ⊕ (RunResult × Request) → RunResult
  | .inl p => p.1
  | .inr p => p.1

/-- Request component of a step outcome. -/
def stepReq : (RunResult × Request) ⊕ (RunResult × Request) → Request
  | .inl p => p.2
  | .inr p => p.2

theorem execStep_attempts (svc : Services) (cfg : EngineConfig) (attempt : Nat)
    (req : Request) (res0 : RunResult) :
    (stepRes (execStep svc cfg attempt req res0)).attempts = (attempt : Int) := by
  unfold execStep
  repeat' split
  all_goals rfl

theorem execStep_req_frame (svc : Services) (cfg : EngineConfig) (attempt : Nat)
    (req : Request) (res0 : RunResult) :
    (stepReq (execStep svc cfg attempt req res0)).mode = req.mode ∧
    (stepReq (execStep svc cfg attempt req res0)).files = req.files ∧
    (stepReq (execStep svc cfg attempt req res0)).workDir = req.workDir := by
  unfold execStep
  repeat' split
  all_goals exact ⟨rfl, rfl, rfl⟩

theorem execStep_req_instruction (svc : Services) (cfg : EngineConfig) (attempt : Nat)
    (req : Request) (res0 : RunResult) :
    (stepReq (execStep svc cfg attempt req res0)).instruction = req.instruction ∨
    ∃ e, verifyBuild (svc.exec attempt) req.workDir = some e ∧
      (stepReq (execStep svc cfg attempt req res0)).instruction =
        appendBuildError req.instruction e := by
  unfold execStep
  repeat' split
  all_goals
    first
      | exact Or.inl rfl
      | (rename_i e heq
         exact Or.inr ⟨e, heq, rfl⟩)

/-! ## Attempt-count bounds of the loop -/

theorem execLoop_attempts_bounds (svc : Services) (cfg : EngineConfig) :
    ∀ (fuel attempt : Nat) (req : Request) (res : RunResult), 1 ≤ fuel →
      (attempt : Int) ≤ (execLoop svc cfg fuel attempt req res).1.attempts ∧
      (execLoop svc cfg fuel attempt req res).1.attempts ≤ (attempt : Int) + fuel - 1 := by
  intro fuel
  induction fuel with
  | zero => intro a req res h; omega
  | succ fuel ih =>
    intro a req res _
    rw [execLoop]
    cases hstep : execStep svc cfg a req res with
    | inl out =>
      have ha := execStep_attempts svc cfg a req res
      rw [hstep] at ha
      simp only [stepRes] at ha
      simp only [ha]
      constructor <;> omega
    | inr pr =>
      obtain ⟨res', req'⟩ := pr
      have ha := execStep_attempts svc cfg a req res
      rw [hstep] at ha
      simp only [stepRes] at ha
      cases fuel with
      | zero =>
        simp only [execLoop, ha]
        constructor <;> omega
      | succ f =>
        have hb := ih (a + 1) req' res' (by omega)
        constructor
        · have := hb.1; push_cast at this ⊢; omega
        · have := hb.2; push_cast at this ⊢; omega

/-! ## Frame and feedback propagation through the loop -/

theorem execLoop_frame (svc : Services) (cfg : EngineConfig) :
    ∀ (fuel attempt : Nat) (req : Request) (res : RunResult),
      (execLoop svc cfg fuel attempt req res).2.mode = req.mode ∧
      (execLoop svc cfg fuel attempt req res).2.files = req.files ∧
      (execLoop svc cfg fuel attempt req res).2.workDir = req.workDir ∧
      ∃ errs : List String,
        (execLoop svc cfg fuel attempt req res).2.instruction =
          errs.foldl appendBuildError req.instruction := by
  intro fuel
  induction fuel with
  | zero => intro a req res; exact ⟨rfl, rfl, rfl, [], rfl⟩
  | succ fuel ih =>
    intro a req res
    rw [execLoop]
    cases hstep : execStep svc cfg a req res with
    | inl out =>
      have hf := execStep_req_frame svc cfg a req res
      have hi := execStep_req_instruction svc cfg a req res
      rw [hstep] at hf hi
      simp only [stepReq] at hf hi
      refine ⟨hf.1, hf.2.1, hf.2.2, ?_⟩
      rcases hi with h | ⟨e, _, h⟩
      · exact ⟨[], by simpa using h⟩
      · exact ⟨[e], by simpa [List.foldl] using h⟩
    | inr pr =>
      obtain ⟨res', req'⟩ := pr
      have hf := execStep_req_frame svc cfg a req res
      have hi := execStep_req_instruction svc cfg a req res
      rw [hstep] at hf hi
      simp only [stepReq] at hf hi
      have hrec := ih (a + 1) req' res'
      refine ⟨hrec.1.trans hf.1, hrec.2.1.trans hf.2.1, hrec.2.2.1.trans hf.2.2, ?_⟩
      obtain ⟨errs, herrs⟩ := hrec.2.2.2
      rcases hi with h | ⟨e, _, h⟩
      · exact ⟨errs, by rw [herrs, h]⟩
      · exact ⟨e :: errs, by rw [herrs, h]; rfl⟩

/-! ## Concrete service stubs used by witnesses -/

/-- Stub bundle whose patches never build: reads succeed, the prompt
service is the concrete builder, the LLM answers one Go code block,
writes succeed, and `go build` exits 1 with stderr `boom`. -/
def svcStub : Services :=
  { read := fun _ _ => .ok "content"
    buildP := fun _ m i fs => .ok (buildUserPrompt m i fs)
    chat := fun _ _ => .ok "```go\ncode\n```"
    write := fun _ _ _ => .ok ()
    exec := fun _ _ _ => .ok (1, "", "boom") }

/-- Stub bundle whose patch builds from the second attempt on. -/
def svcStub2 : Services :=
  { svcStub with
      exec := fun a _ _ => if a = 1 then .ok (1, "", "boom") else .ok (0, "", "") }

/-- Stub bundle whose LLM fails fatally (no retryability marker). -/
def svcFatal : Services :=
  { svcStub with chat := fun _ _ => .error "invalid api key" }

/-- Stub bundle whose LLM fails with a retryable error. -/
def svcRetry : Services :=
  { svcStub with chat := fun _ _ => .error "timeout waiting for response" }

def reqStub : Request :=
  { mode := "fix", files := ["main.go"], instruction := "Fix the bug", workDir := "w" }

example :
    (Execute svcStub { maxRetries := 2, buildVerify := true } reqStub).1.attempts = 2 ∧
    (Execute svcStub { maxRetries := 2, buildVerify := true } reqStub).1.success = false ∧
    (Execute svcStub { maxRetries := 2, buildVerify := true } reqStub).1.error =
      some "build failed: boom" ∧
    (Execute svcStub { maxRetries := 2, buildVerify := true } reqStub).2.instruction =
      appendBuildError (appendBuildError "Fix the bug" "boom") "boom" := by decide
example :
    (Execute svcStub2 { maxRetries := 3, buildVerify := true } reqStub).1.attempts = 2 ∧
    (Execute svcStub2 { maxRetries := 3, buildVerify := true } reqStub).1.success = true := by
  decide
example :
    (Execute svcFatal { maxRetries := 3, buildVerify := true } reqStub).1.attempts = 1 ∧
    (Execute svcFatal { maxRetries := 3, buildVerify := true } reqStub).1.error =
      some "LLM call: invalid api key" := by decide
example :
    (Execute svcRetry { maxRetries := 3, buildVerify := true } reqStub).1.attempts = 3 := by
  decide

/-! ## Characterisation of the write step -/

/-- Target selection for the block at index `i`: the `i`-th requested
file when it exists, else the block's own filename, else none. -/
def assignF (files : List String) (p : Nat × CodeBlock) : Option (String × String) :=
  if p.1 < files.length then some (files.getD p.1 "", p.2.code)
  else if p.2.filename ≠ "" then some (p.2.filename, p.2.code)
  else none

/-- The assignment policy exactly as the specification words it:
generated code blocks are paired to requested target files positionally
(the i-th code block maps to the i-th requested file); a block beyond the
number of requested files is dropped unless it declares its own target
name. -/
def positionalAssign (files : List String) (blocks : List CodeBlock) :
    List (String × String) :=
  (blocks.enum).filterMap (assignF files)

/-- A write service that always succeeds. -/
def alwaysOkWrite : String → String → Except String Unit := fun _ _ => .ok ()

theorem writeFilesLoop_ok (w : String → String → Except String Unit)
    (hw : ∀ t c, w t c = .ok ()) (files : List String) :
    ∀ (blocks : List CodeBlock) (i : Nat) (trace : List (String × String))
      (written : List String),
      writeFilesLoop w files i blocks trace written =
        (trace ++ (blocks.enumFrom i).filterMap (assignF files),
         written ++ ((blocks.enumFrom i).filterMap (assignF files)).map Prod.fst,
         none) := by
  intro blocks
  induction blocks with
  | nil => intro i trace written; simp [writeFilesLoop, List.enumFrom]
  | cons b bs ih =>
    intro i trace written
    rw [writeFilesLoop]
    by_cases h1 : i < files.length
    · simp only [h1, if_true, hw, ih, List.enumFrom, List.filterMap_cons, assignF]
      simp [List.append_assoc]
    · by_cases h2 : b.filename ≠ ""
      · simp only [h1, if_false, h2, if_true, ite_not, hw, ih, List.enumFrom,
          List.filterMap_cons, assignF]
        simp [h2, List.append_assoc]
      · simp only [ne_eq, not_not] at h2
        simp only [h1, if_false, h2, ih, List.enumFrom, List.filterMap_cons, assignF]
        simp [h2]

/-- C5: with a succeeding writer, the write step performs exactly the
positional assignment of blocks to requested files. -/
theorem writeFiles_positional (files : List String) (blocks : List CodeBlock) :
    writeFiles alwaysOkWrite files blocks =
      (positionalAssign files blocks,
       (positionalAssign files blocks).map Prod.fst, none) := by
  unfold writeFiles positionalAssign
  rw [writeFilesLoop_ok alwaysOkWrite (fun _ _ => rfl) files blocks 0 [] []]
  simp [List.enum]

/-! ## Deterministic runs of the loop under stub hypotheses -/

theorem readFiles_ok (rd : String → Except String String) (c : String → String)
    (h : ∀ p, rd p = .ok (c p)) :
    ∀ ps : List String, readFiles rd ps = .ok (ps.map fun p => (p, c p)) := by
  intro ps
  induction ps with
  | nil => rfl
  | cons p ps ih => simp [readFiles, h p, ih]

theorem writeFiles_ok (w : String → String → Except String Unit)
    (hw : ∀ t c, w t c = .ok ()) (files : List String) (blocks : List CodeBlock) :
    writeFiles w files blocks =
      ((blocks.enum).filterMap (assignF files),
       ((blocks.enum).filterMap (assignF files)).map Prod.fst, none) := by
  unfold writeFiles
  rw [writeFilesLoop_ok w hw files blocks 0 [] []]
  simp [List.enum]

/-- With every collaborator succeeding at attempt `a` and build
verification failing with `e`, one iteration is a `continue` carrying the
wrapped error and the feedback-extended instruction. -/
theorem execStep_verify_fail_shape (svc : Services) (cfg : EngineConfig)
    (a : Nat) (req : Request) (res0 : RunResult)
    (rc : String → String) (ch : String → String) (e : String)
    (hread : ∀ p, svc.read a p = .ok (rc p))
    (hbp : ∀ m i fs, svc.buildP a m i fs = .ok (buildUserPrompt m i fs))
    (hchat : ∀ p, svc.chat a p = .ok (ch p))
    (hblocks : ∀ p, (parseCodeBlocks (ch p)).isEmpty = false)
    (hwrite : ∀ t c, svc.write a t c = .ok ())
    (hbv : cfg.buildVerify = true) (hwd : req.workDir ≠ "")
    (hverify : verifyBuild (svc.exec a) req.workDir = some e) :
    ∃ wr, execStep svc cfg a req res0 =
      .inr ({ res0 with attempts := (a : Int), filesWritten := wr,
                        error := some ("build failed: " ++ e) },
            { req with instruction := appendBuildError req.instruction e }) := by
  unfold execStep
  have hcond : (cfg.buildVerify && decide (req.workDir ≠ "")) = true := by
    simp [hbv, hwd]
  simp only [readFiles_ok (svc.read a) rc hread req.files, hbp, hchat, hblocks,
    Bool.false_eq_true, if_false, writeFiles_ok (svc.write a) hwrite, hcond,
    if_true, hverify]
  exact ⟨_, rfl⟩

/-- With every collaborator succeeding at attempt `a` and build
verification passing, one iteration is the success exit. -/
theorem execStep_verify_ok_shape (svc : Services) (cfg : EngineConfig)
    (a : Nat) (req : Request) (res0 : RunResult)
    (rc : String → String) (ch : String → String)
    (hread : ∀ p, svc.read a p = .ok (rc p))
    (hbp : ∀ m i fs, svc.buildP a m i fs = .ok (buildUserPrompt m i fs))
    (hchat : ∀ p, svc.chat a p = .ok (ch p))
    (hblocks : ∀ p, (parseCodeBlocks (ch p)).isEmpty = false)
    (hwrite : ∀ t c, svc.write a t c = .ok ())
    (hverify : verifyBuild (svc.exec a) req.workDir = none) :
    ∃ wr response, execStep svc cfg a req res0 =
      .inl ({ res0 with attempts := (a : Int), filesWritten := wr,
                        success := true, output := response,
                        explanation := extractExplanation response,
                        error := none }, req) ∧
      response =
        ch (buildUserPrompt req.mode req.instruction
              (req.files.map fun p => (p, rc p))) := by
  unfold execStep
  simp only [readFiles_ok (svc.read a) rc hread req.files, hbp, hchat, hblocks,
    Bool.false_eq_true, if_false, writeFiles_ok (svc.write a) hwrite]
  by_cases hc : (cfg.buildVerify && decide (req.workDir ≠ "")) = true
  · simp only [hc, if_true, hverify]
    exact ⟨_, _, rfl, rfl⟩
  · simp only [hc, if_false]
    exact ⟨_, _, rfl, rfl⟩

theorem execLoop_all_fail (svc : Services) (cfg : EngineConfig)
    (rc : Nat → String → String) (ch : Nat → String → String) (ve : Nat → String)
    (hread : ∀ a p, svc.read a p = .ok (rc a p))
    (hbp : ∀ a m i fs, svc.buildP a m i fs = .ok (buildUserPrompt m i fs))
    (hchat : ∀ a p, svc.chat a p = .ok (ch a p))
    (hblocks : ∀ a p, (parseCodeBlocks (ch a p)).isEmpty = false)
    (hwrite : ∀ a t c, svc.write a t c = .ok ())
    (hbv : cfg.buildVerify = true) (wd : String) (hwd : wd ≠ "")
    (hverify : ∀ a, verifyBuild (svc.exec a) wd = some (ve a)) :
    ∀ (fuel a : Nat) (req : Request) (res : RunResult),
      req.workDir = wd → res.success = false →
      (execLoop svc cfg (fuel + 1) a req res).1.success = false ∧
      (execLoop svc cfg (fuel + 1) a req res).1.attempts = ((a + fuel : Nat) : Int) ∧
      (execLoop svc cfg (fuel + 1) a req res).1.error =
        some ("build failed: " ++ ve (a + fuel)) := by
  intro fuel
  induction fuel with
  | zero =>
    intro a req res hreq hsucc
    obtain ⟨wr, hstep⟩ := execStep_verify_fail_shape svc cfg a req res (rc a) (ch a) (ve a)
      (hread a) (hbp a) (hchat a) (hblocks a) (hwrite a) hbv
      (by rw [hreq]; exact hwd) (by rw [hreq]; exact hverify a)
    rw [execLoop, hstep]
    simp only [execLoop]
    exact ⟨hsucc, by simp, rfl⟩
  | succ f ih =>
    intro a req res hreq hsucc
    obtain ⟨wr, hstep⟩ := execStep_verify_fail_shape svc cfg a req res (rc a) (ch a) (ve a)
      (hread a) (hbp a) (hchat a) (hblocks a) (hwrite a) hbv
      (by rw [hreq]; exact hwd) (by rw [hreq]; exact hverify a)
    rw [execLoop, hstep]
    have hrec := ih (a + 1)
      { req with instruction := appendBuildError req.instruction (ve a) }
      { res with attempts := (a : Int), filesWritten := wr,
                 error := some ("build failed: " ++ ve a) }
      (by simpa using hreq) (by simpa using hsucc)
    have harith : a + 1 + f = a + (f + 1) := by omega
    rw [harith] at hrec
    exact hrec

/-- C1: with `MaxRetries ≥ 1`, build verification enabled, a non-empty
work directory, and collaborators that always succeed while every
attempt's patch fails build verification, `Execute` consumes exactly
`MaxRetries` attempts and returns failure carrying the last attempt's
build-verification error. -/
theorem execute_exhausts_maxRetries (svc : Services) (cfg : EngineConfig) (req : Request)
    (rc : Nat → String → String) (ch : Nat → String → String) (ve : Nat → String)
    (hmax : 1 ≤ cfg.maxRetries)
    (hbv : cfg.buildVerify = true) (hwd : req.workDir ≠ "")
    (hread : ∀ a p, svc.read a p = .ok (rc a p))
    (hbp : ∀ a m i fs, svc.buildP a m i fs = .ok (buildUserPrompt m i fs))
    (hchat : ∀ a p, svc.chat a p = .ok (ch a p))
    (hblocks : ∀ a p, (parseCodeBlocks (ch a p)).isEmpty = false)
    (hwrite : ∀ a t c, svc.write a t c = .ok ())
    (hverify : ∀ a, verifyBuild (svc.exec a) req.workDir = some (ve a)) :
    (Execute svc cfg req).1.attempts = cfg.maxRetries ∧
    (Execute svc cfg req).1.success = false ∧
    (Execute svc cfg req).1.error =
      some ("build failed: " ++ ve cfg.maxRetries.toNat) := by
  unfold Execute
  obtain ⟨k, hk⟩ : ∃ k, cfg.maxRetries.toNat = k + 1 :=
    ⟨cfg.maxRetries.toNat - 1, by omega⟩
  rw [hk]
  have hall := execLoop_all_fail svc cfg rc ch ve hread hbp hchat hblocks hwrite hbv
    req.workDir hwd hverify k 1 req {} rfl rfl
  refine ⟨?_, hall.1, ?_⟩
  · rw [hall.2.1]; push_cast; omega
  · rw [hall.2.2, Nat.add_comm 1 k]

theorem execute_exhausts_maxRetries_witness :
    (Execute svcStub { maxRetries := 2, buildVerify := true } reqStub).1.attempts = 2 ∧
    (Execute svcStub { maxRetries := 2, buildVerify := true } reqStub).1.success = false ∧
    (Execute svcStub { maxRetries := 2, buildVerify := true } reqStub).1.error =
      some ("build failed: " ++ "boom") :=
  execute_exhausts_maxRetries svcStub { maxRetries := 2, buildVerify := true } reqStub
    (fun _ _ => "content") (fun _ _ => "```go\ncode\n```") (fun _ => "boom")
    (by decide) rfl (by decide)
    (fun _ _ => rfl) (fun _ _ _ _ => rfl) (fun _ _ => rfl)
    (fun _ _ =>
      (by decide : (parseCodeBlocks "```go\ncode\n```").isEmpty = false))
    (fun _ _ _ => rfl)
    (fun _ =>
      (by decide : verifyBuild (svcStub.exec 0) reqStub.workDir = some "boom"))

/-! ## Feedback-injection substring facts -/

theorem appendBuildError_data (i e : String) :
    (appendBuildError i e).data =
      i.data ++ ("\n\nPrevious attempt failed:\n".data ++
        (e.data ++ "\nPlease fix the code.".data)) := by
  simp [appendBuildError, String.data_append, List.append_assoc]

theorem appendBuildError_ne_empty (i e : String) : appendBuildError i e ≠ "" := by
  intro h
  have hd : (appendBuildError i e).data = [] := by rw [h]
  rw [appendBuildError_data] at hd
  rcases List.append_eq_nil.mp hd with ⟨_, h2⟩
  rcases List.append_eq_nil.mp h2 with ⟨h3, _⟩
  exact absurd h3 (by decide)

theorem appendBuildError_contains_err (i e : String) :
    containsSub (appendBuildError i e).data e.data = true := by
  rw [appendBuildError_data]
  apply containsSub_append_right
  apply containsSub_append_right
  exact containsSub_append_left _ _ _ (containsSub_self e.data)

/-- Any substring of a non-empty instruction is a substring of the user
prompt built from it. -/
theorem buildUserPrompt_contains (m i : String) (fs : List (String × String))
    (sub : String) (hi : i ≠ "") (hsub : containsSub i.data sub.data = true) :
    strContains (buildUserPrompt m i fs) sub = true := by
  unfold buildUserPrompt strContains
  rw [if_neg hi]
  simp only [String.data_append, List.append_assoc]
  apply containsSub_append_right
  apply containsSub_append_right
  apply containsSub_append_right
  apply containsSub_append_right
  exact containsSub_append_left _ _ _ hsub

/-- A successful attempt `a` (collaborators succeed, verification
passes) makes the loop exit with success and `attempts = a`. -/
theorem execLoop_step_ok_success (svc : Services) (cfg : EngineConfig)
    (a : Nat) (req : Request) (res : RunResult)
    (rc : String → String) (ch : String → String)
    (hread : ∀ p, svc.read a p = .ok (rc p))
    (hbp : ∀ m i fs, svc.buildP a m i fs = .ok (buildUserPrompt m i fs))
    (hchat : ∀ p, svc.chat a p = .ok (ch p))
    (hblocks : ∀ p, (parseCodeBlocks (ch p)).isEmpty = false)
    (hwrite : ∀ t c, svc.write a t c = .ok ())
    (hverify : verifyBuild (svc.exec a) req.workDir = none) :
    ∀ fuel, (execLoop svc cfg (fuel + 1) a req res).1.success = true ∧
            (execLoop svc cfg (fuel + 1) a req res).1.attempts = (a : Int) := by
  intro fuel
  obtain ⟨wr, resp, hstep, _⟩ := execStep_verify_ok_shape svc cfg a req res rc ch
    hread hbp hchat hblocks hwrite hverify
  rw [execLoop, hstep]
  exact ⟨rfl, rfl⟩

/-- C2: when attempt 1 fails build verification with error `e1` and
attempt 2 verifies, `Execute` returns success with `attempts = 2`, and
`e1` is a substring of the user prompt the engine hands to the LLM on
attempt 2 — the prompt built from the instruction with the attempt-1
failure appended (feedback is appended, never reset). -/
theorem execute_second_attempt_succeeds (svc : Services) (cfg : EngineConfig)
    (req : Request) (rc : Nat → String → String) (ch : Nat → String → String)
    (e1 : String)
    (hmax : 2 ≤ cfg.maxRetries)
    (hbv : cfg.buildVerify = true) (hwd : req.workDir ≠ "")
    (hread : ∀ a p, svc.read a p = .ok (rc a p))
    (hbp : ∀ a m i fs, svc.buildP a m i fs = .ok (buildUserPrompt m i fs))
    (hchat : ∀ a p, svc.chat a p = .ok (ch a p))
    (hblocks : ∀ a p, (parseCodeBlocks (ch a p)).isEmpty = false)
    (hwrite : ∀ a t c, svc.write a t c = .ok ())
    (hv1 : verifyBuild (svc.exec 1) req.workDir = some e1)
    (hv2 : verifyBuild (svc.exec 2) req.workDir = none) :
    (Execute svc cfg req).1.success = true ∧
    (Execute svc cfg req).1.attempts = 2 ∧
    strContains
      (buildUserPrompt req.mode (appendBuildError req.instruction e1)
        (req.files.map fun p => (p, rc 2 p))) e1 = true := by
  unfold Execute
  obtain ⟨f, hf⟩ : ∃ f, cfg.maxRetries.toNat = f + 2 :=
    ⟨cfg.maxRetries.toNat - 2, by omega⟩
  rw [hf, show f + 2 = (f + 1) + 1 from rfl, execLoop]
  obtain ⟨wr1, hstep1⟩ := execStep_verify_fail_shape svc cfg 1 req {} (rc 1) (ch 1) e1
    (hread 1) (hbp 1) (hchat 1) (hblocks 1) (hwrite 1) hbv hwd hv1
  rw [hstep1]
  dsimp only
  have h2 := execLoop_step_ok_success svc cfg (1 + 1)
    { mode := req.mode, files := req.files,
      instruction := appendBuildError req.instruction e1, workDir := req.workDir }
    { success := false, filesWritten := wr1, output := "", explanation := "",
      attempts := ((1 : Nat) : Int), error := some ("build failed: " ++ e1) }
    (rc 2) (ch 2) (hread 2) (hbp 2) (hchat 2) (hblocks 2) (hwrite 2) hv2 f
  refine ⟨h2.1, h2.2.trans (by norm_num), ?_⟩
  exact buildUserPrompt_contains req.mode (appendBuildError req.instruction e1) _ e1
    (appendBuildError_ne_empty _ _) (appendBuildError_contains_err _ _)

theorem execute_second_attempt_succeeds_witness :
    (Execute svcStub2 { maxRetries := 3, buildVerify := true } reqStub).1.success = true ∧
    (Execute svcStub2 { maxRetries := 3, buildVerify := true } reqStub).1.attempts = 2 ∧
    strContains
      (buildUserPrompt "fix" (appendBuildError "Fix the bug" "boom")
        [("main.go", "content")]) "boom" = true :=
  execute_second_attempt_succeeds svcStub2 { maxRetries := 3, buildVerify := true }
    reqStub (fun _ _ => "content") (fun _ _ => "```go\ncode\n```") "boom"
    (by decide) rfl (by decide)
    (fun _ _ => rfl) (fun _ _ _ _ => rfl) (fun _ _ => rfl)
    (fun _ _ =>
      (by decide : (parseCodeBlocks "```go\ncode\n```").isEmpty = false))
    (fun _ _ _ => rfl)
    (by decide) (by decide)

/-! ## LLM-error classification and its effect on the loop -/

/-- Case-insensitive containment, as the specification words it. -/
def containsCI (s pat : String) : Bool :=
  containsSub (s.data.map toLowerChar) (pat.data.map toLowerChar)

theorem execStep_chat_error_shape (svc : Services) (cfg : EngineConfig)
    (a : Nat) (req : Request) (res0 : RunResult)
    (rc : String → String) (e : String)
    (hread : ∀ p, svc.read a p = .ok (rc p))
    (hbp : ∀ m i fs, svc.buildP a m i fs = .ok (buildUserPrompt m i fs))
    (hchat : ∀ p, svc.chat a p = .error e) :
    execStep svc cfg a req res0 =
      if isRetryable e then
        .inr ({ res0 with attempts := (a : Int),
                          error := some ("LLM call: " ++ e) }, req)
      else
        .inl ({ res0 with attempts := (a : Int),
                          error := some ("LLM call: " ++ e) }, req) := by
  unfold execStep
  simp only [readFiles_ok (svc.read a) rc hread req.files, hbp, hchat]

/-- C6: the loop classifies a generation-service error as retryable
exactly when its text case-insensitively contains one of the markers
`timeout`, `connection`, `rate limit`, `502`, `503`; a fatal error at
attempt 1 aborts the run immediately (one attempt consumed, failure with
the wrapped error), while a retryable one lets the loop reach attempt 2. -/
theorem llm_error_classification_and_abort :
    (∀ e : String, isRetryable e = true ↔
      (containsCI e "timeout" = true ∨ containsCI e "connection" = true ∨
       containsCI e "rate limit" = true ∨ containsCI e "502" = true ∨
       containsCI e "503" = true)) ∧
    (∀ (svc : Services) (cfg : EngineConfig) (req : Request)
       (rc : String → String) (e : String),
      (∀ p, svc.read 1 p = .ok (rc p)) →
      (∀ m i fs, svc.buildP 1 m i fs = .ok (buildUserPrompt m i fs)) →
      (∀ p, svc.chat 1 p = .error e) →
      isRetryable e = false → 1 ≤ cfg.maxRetries →
      (Execute svc cfg req).1.attempts = 1 ∧
      (Execute svc cfg req).1.success = false ∧
      (Execute svc cfg req).1.error = some ("LLM call: " ++ e)) ∧
    (∀ (svc : Services) (cfg : EngineConfig) (req : Request)
       (rc : String → String) (e : String),
      (∀ p, svc.read 1 p = .ok (rc p)) →
      (∀ m i fs, svc.buildP 1 m i fs = .ok (buildUserPrompt m i fs)) →
      (∀ p, svc.chat 1 p = .error e) →
      isRetryable e = true → 2 ≤ cfg.maxRetries →
      2 ≤ (Execute svc cfg req).1.attempts) := by
  refine ⟨?_, ?_, ?_⟩
  · intro e
    unfold isRetryable containsCI
    rw [show "timeout".data.map toLowerChar = "timeout".data from by decide,
        show "connection".data.map toLowerChar = "connection".data from by decide,
        show "rate limit".data.map toLowerChar = "rate limit".data from by decide,
        show "502".data.map toLowerChar = "502".data from by decide,
        show "503".data.map toLowerChar = "503".data from by decide]
    simp only [Bool.or_eq_true]
    tauto
  · intro svc cfg req rc e hread hbp hchat hfat hmax
    unfold Execute
    obtain ⟨k, hk⟩ : ∃ k, cfg.maxRetries.toNat = k + 1 :=
      ⟨cfg.maxRetries.toNat - 1, by omega⟩
    rw [hk, execLoop]
    rw [execStep_chat_error_shape svc cfg 1 req {} rc e hread hbp hchat,
        if_neg (by simp [hfat])]
    exact ⟨rfl, rfl, rfl⟩
  · intro svc cfg req rc e hread hbp hchat hret hmax
    unfold Execute
    obtain ⟨f, hf⟩ : ∃ f, cfg.maxRetries.toNat = f + 2 :=
      ⟨cfg.maxRetries.toNat - 2, by omega⟩
    rw [hf, show f + 2 = (f + 1) + 1 from rfl, execLoop]
    rw [execStep_chat_error_shape svc cfg 1 req {} rc e hread hbp hchat,
        if_pos hret]
    dsimp only
    have hb := execLoop_attempts_bounds svc cfg (f + 1) (1 + 1) req
      { success := false, filesWritten := [], output := "", explanation := "",
        attempts := ((1 : Nat) : Int), error := some ("LLM call: " ++ e) }
      (by omega)
    exact le_trans (by norm_num) hb.1

theorem llm_error_classification_witness :
    isRetryable "invalid api key" = false ∧
    isRetryable "timeout waiting for response" = true ∧
    (Execute svcFatal { maxRetries := 3, buildVerify := true } reqStub).1.attempts = 1 ∧
    (Execute svcFatal { maxRetries := 3, buildVerify := true } reqStub).1.success = false ∧
    (Execute svcFatal { maxRetries := 3, buildVerify := true } reqStub).1.error =
      some ("LLM call: " ++ "invalid api key") ∧
    2 ≤ (Execute svcRetry { maxRetries := 3, buildVerify := true } reqStub).1.attempts := by
  have hfatal := llm_error_classification_and_abort.2.1 svcFatal
    { maxRetries := 3, buildVerify := true } reqStub (fun _ => "content")
    "invalid api key" (fun _ => rfl) (fun _ _ _ => rfl) (fun _ => rfl)
    (by decide) (by decide)
  have hretry := llm_error_classification_and_abort.2.2 svcRetry
    { maxRetries := 3, buildVerify := true } reqStub (fun _ => "content")
    "timeout waiting for response" (fun _ => rfl) (fun _ _ _ => rfl) (fun _ => rfl)
    (by decide) (by decide)
  exact ⟨by decide, by decide, hfatal.1, hfatal.2.1, hfatal.2.2, hretry⟩

/-- C9: `Execute` hands back the caller's request with `Mode`, `Files`
and `WorkDir` unchanged, and with the instruction equal to the initial
one extended by a (possibly empty) left fold of `appendBuildError` over
the build-verification failures encountered — appended, never reset; with
the always-failing stub the caller's instruction actually changes. -/
theorem execute_mutates_only_instruction :
    (∀ (svc : Services) (cfg : EngineConfig) (req : Request),
      (Execute svc cfg req).2.mode = req.mode ∧
      (Execute svc cfg req).2.files = req.files ∧
      (Execute svc cfg req).2.workDir = req.workDir ∧
      ∃ errs : List String,
        (Execute svc cfg req).2.instruction =
          errs.foldl appendBuildError req.instruction) ∧
    (Execute svcStub { maxRetries := 2, buildVerify := true } reqStub).2.instruction ≠
      reqStub.instruction := by
  constructor
  · intro svc cfg req
    exact execLoop_frame svc cfg cfg.maxRetries.toNat 1 req {}
  · decide

/-- C4 (amended): for every run with `MaxRetries ≥ 1` the returned
`Attempts` lies in `[1, MaxRetries]`; the original claim fails at
`MaxRetries = 0`, where `Execute` returns `Attempts = 0`. -/
theorem execute_attempts_in_range (svc : Services) (cfg : EngineConfig) (req : Request)
    (hmax : 1 ≤ cfg.maxRetries) :
    0 < (Execute svc cfg req).1.attempts ∧
    (Execute svc cfg req).1.attempts ≤ cfg.maxRetries := by
  have hfuel : 1 ≤ cfg.maxRetries.toNat := by omega
  have hb := execLoop_attempts_bounds svc cfg cfg.maxRetries.toNat 1 req {} hfuel
  unfold Execute
  constructor
  · have h1 := hb.1; push_cast at h1; omega
  · have h2 := hb.2; push_cast at h2; omega

theorem execute_attempts_in_range_witness :
    0 < (Execute svcStub { maxRetries := 2, buildVerify := true } reqStub).1.attempts ∧
    (Execute svcStub { maxRetries := 2, buildVerify := true } reqStub).1.attempts ≤ 2 :=
  execute_attempts_in_range svcStub { maxRetries := 2, buildVerify := true } reqStub
    (by decide)

/-- C4 counterexample: with `MaxRetries = 0` the loop body never runs and
`Execute` returns `Attempts = 0`, refuting "strictly greater than zero
for every configuration". -/
theorem execute_attempts_zero_counterexample :
    (Execute svcStub { maxRetries := 0, buildVerify := true } reqStub).1.attempts = 0 ∧
    ¬ 0 < (Execute svcStub { maxRetries := 0, buildVerify := true } reqStub).1.attempts := by
  decide

/-! ## Claims about the extractors -/

/-- C7: the compiler-output line `handler.go:12:5: undefined: parseUser`
yields exactly one Issue with category `build`, level `error`, file
`handler.go`, line 12, column 5, and a title containing `parseUser`. -/
theorem compiler_line_undefined_parseUser :
    (parseBuildErrors "handler.go:12:5: undefined: parseUser").length = 1 ∧
    ∀ i ∈ parseBuildErrors "handler.go:12:5: undefined: parseUser",
      i.category = "build" ∧ i.level = "error" ∧ i.file = "handler.go" ∧
      i.line = 12 ∧ i.column = 5 ∧ strContains i.title "parseUser" = true := by
  decide

/-- C8: the runtime-crash extractor emits at most one issue per
signature per scan — at most one panic, one nil-dereference and one
index-out-of-range issue — hence at most three issues, however often each
signature occurs in the output. -/
theorem runtime_extractor_once_per_signature (output : String) :
    (parseRuntimeErrors output).length ≤ 3 ∧
    ((parseRuntimeErrors output).filter
      (fun i => i.id == "runtime-panic")).length ≤ 1 ∧
    ((parseRuntimeErrors output).filter
      (fun i => i.id == "runtime-nil-pointer")).length ≤ 1 ∧
    ((parseRuntimeErrors output).filter
      (fun i => i.id == "runtime-index-out-of-range")).length ≤ 1 := by
  unfold parseRuntimeErrors
  cases findPanic output.data <;>
    by_cases h1 : containsSub output.data "nil pointer dereference".data <;>
    by_cases h2 : containsSub output.data "index out of range".data <;>
    simp [h1, h2]

/-- C10: a structured compiler-error line whose message contains
`undefined` but where `undefined: <identifier>` does not match is emitted
with empty ID, Title, Description (and Suggestion): only category,
level, location and raw output are populated. -/
theorem undefined_without_identifier_blank_fields
    (rawLine f d1 d2 msg : List Char)
    (hu : containsSub msg "undefined".data = true)
    (hn : findUndefined msg = none) :
    (classifyBuildMatch rawLine f d1 d2 msg).id = "" ∧
    (classifyBuildMatch rawLine f d1 d2 msg).title = "" ∧
    (classifyBuildMatch rawLine f d1 d2 msg).description = "" ∧
    (classifyBuildMatch rawLine f d1 d2 msg).suggestion = "" ∧
    (classifyBuildMatch rawLine f d1 d2 msg).category = "build" ∧
    (classifyBuildMatch rawLine f d1 d2 msg).level = "error" ∧
    (classifyBuildMatch rawLine f d1 d2 msg).file = ⟨f⟩ ∧
    (classifyBuildMatch rawLine f d1 d2 msg).line = parseIntDigits d1 ∧
    (classifyBuildMatch rawLine f d1 d2 msg).column = parseIntDigits d2 ∧
    (classifyBuildMatch rawLine f d1 d2 msg).rawOutput = ⟨rawLine⟩ := by
  unfold classifyBuildMatch
  simp [hu, hn]

theorem undefined_without_identifier_blank_fields_witness :
    containsSub "undefined something".data "undefined".data = true ∧
    findUndefined "undefined something".data = none ∧
    (classifyBuildMatch "handler.go:3:1: undefined something".data
      "handler.go".data "3".data "1".data "undefined something".data).id = "" ∧
    (classifyBuildMatch "handler.go:3:1: undefined something".data
      "handler.go".data "3".data "1".data "undefined something".data).title = "" := by
  refine ⟨by decide, by decide, ?_, ?_⟩
  · exact (undefined_without_identifier_blank_fields _ _ _ _ _
      (by decide) (by decide)).1
  · exact (undefined_without_identifier_blank_fields _ _ _ _ _
      (by decide) (by decide)).2.1

/-! ## Id stability and (partial) location-uniqueness of build issues -/

theorem append_natDec_inj (p : String) {n m : Nat}
    (h : p ++ natDec n = p ++ natDec m) : n = m := by
  have hd : (p ++ natDec n).data = (p ++ natDec m).data := by rw [h]
  rw [String.data_append, String.data_append] at hd
  exact natDecList_inj (List.append_cancel_left hd)

/-- C3 counterexample: two structured lines at different locations
(`a.go:1:1` vs `b.go:2:2`) sharing the undefined symbol `foo` produce
issues with the same id `build-undefined-foo`, refuting "for any two
Issues that differ in location their ids differ". -/
theorem build_ids_location_counterexample :
    (parseBuildErrors "a.go:1:1: undefined: foo\nb.go:2:2: undefined: foo").map
      Issue.id = ["build-undefined-foo", "build-undefined-foo"] ∧
    (parseBuildErrors "a.go:1:1: undefined: foo\nb.go:2:2: undefined: foo").map
      Issue.file = ["a.go", "b.go"] ∧
    (parseBuildErrors "a.go:1:1: undefined: foo\nb.go:2:2: undefined: foo").map
      Issue.line = [1, 2] := by
  decide

/-- C3 (amended): for structured compiler-error issues, (i) the id is a
function of category, location and message alone (it never depends on the
raw line), (ii) two issues classified as the same undefined symbol share
an id regardless of location, and (iii) for the branches whose id embeds
the location (unused-declaration, type-mismatch, generic build error) two
issues with the same file and message but different line numbers have
different ids; undefined-identifier issues are exactly the failure case
of location-uniqueness exhibited by the counterexample. -/
theorem build_id_stability :
    (∀ raw raw' f d1 d2 msg,
      (classifyBuildMatch raw f d1 d2 msg).id =
        (classifyBuildMatch raw' f d1 d2 msg).id) ∧
    (∀ raw raw' f f' d1 d1' d2 d2' msg msg' w,
      containsSub msg "undefined".data = true →
      containsSub msg' "undefined".data = true →
      findUndefined msg = some w →
      findUndefined msg' = some w →
      (classifyBuildMatch raw f d1 d2 msg).id =
        (classifyBuildMatch raw' f' d1' d2' msg').id) ∧
    (∀ raw raw' f d1 d1' d2 d2' msg,
      containsSub msg "undefined".data = false →
      containsSub msg "could not import".data = false →
      parseIntDigits d1 ≠ parseIntDigits d1' →
      (classifyBuildMatch raw f d1 d2 msg).id ≠
        (classifyBuildMatch raw' f d1' d2' msg).id) := by
  refine ⟨?_, ?_, ?_⟩
  · intro raw raw' f d1 d2 msg
    unfold classifyBuildMatch
    repeat' split
    all_goals rfl
  · intro raw raw' f f' d1 d1' d2 d2' msg msg' w hu hu' hf hf'
    unfold classifyBuildMatch
    simp only [hu, hu', if_true, hf, hf']
  · intro raw raw' f d1 d1' d2 d2' msg hu hi hne heq
    unfold classifyBuildMatch at heq
    simp only [hu, hi, Bool.false_eq_true, if_false] at heq
    by_cases h3 : containsSub msg "declared but not used".data = true
    · simp only [h3, if_true] at heq
      exact hne (append_natDec_inj _ heq)
    · simp only [h3, Bool.false_eq_true, if_false] at heq
      by_cases h4 : containsSub msg "cannot use".data = true
      · simp only [h4, if_true] at heq
        exact hne (append_natDec_inj _ heq)
      · simp only [h4, Bool.false_eq_true, if_false] at heq
        exact hne (append_natDec_inj _ heq)

theorem build_id_stability_witness :
    (classifyBuildMatch "a.go:1:1: undefined: foo".data "a.go".data
        "1".data "1".data "undefined: foo".data).id =
      (classifyBuildMatch "b.go:2:2: zz undefined: foo".data "b.go".data
        "2".data "2".data "zz undefined: foo".data).id ∧
    (classifyBuildMatch "a.go:1:1: x declared but not used".data "a.go".data
        "1".data "1".data "x declared but not used".data).id ≠
      (classifyBuildMatch "a.go:2:2: x declared but not used".data "a.go".data
        "2".data "2".data "x declared but not used".data).id := by
  constructor
  · exact build_id_stability.2.1 _ _ _ _ _ _ _ _ _ _ "foo".data
      (by decide) (by decide) (by decide) (by decide)
  · exact build_id_stability.2.2 _ _ _ _ _ _ _ _
      (by decide) (by decide) (by decide)
